import Mathlib

/-!
Shallow embedding of `monitor_logs_ingestion.py` from the repository
`tf-logstash-s3-filebeat`.

The embedding covers:
* the Elasticsearch document-count query wrapper `get_doc_count`
  (lines 237-260 of the source);
* the ingestion-stability monitoring loop inside `monitor_elasticsearch`
  (lines 289-371), modelled as a fuel-indexed loop `monitorLoop` over an
  abstract stream of sampled counts and sample times, together with the
  pure state-evolution function `runState` and the per-tick termination
  flag `doneAt`;
* the default-index-pattern logic `get_default_index_pattern`
  (lines 226-235) and the pattern resolution at line 294;
* the download-status probe `check_log_download_status` (lines 123-133),
  including the Python substring test `"Downloaded" in output`;
* the driver `main` (lines 395-459), modelled as a step-trace function
  `mainRun` over an abstract remote environment, with the `try/finally`
  block translated as an unconditional trailing `sshClose` action on the
  trace of every body path.

Counts and times are modelled as `Int` (Python integers / real-valued
`time.time()` restricted to the integer comparisons the code performs);
machine width plays no role in the source.
-/

namespace LogPipeline

/-! ## Python substring test (`pat in s`) -/

/-- Character-list prefix test used to model Python's substring operator. -/
def matchAt : List Char → List Char → Bool
  | [], _ => true
  | _ :: _, [] => false
  | p :: ps, c :: cs => (p == c) && matchAt ps cs

/-- Substring containment on character lists. -/
def subIn (pat s : List Char) : Bool :=
  (List.range (s.length + 1)).any fun i => matchAt pat (s.drop i)

/-- Model of the Python expression `pat in s` on strings. -/
def pyIn (pat s : String) : Bool := subIn pat.data s.data

/-! ## `get_doc_count` (lines 237-260)

The Elasticsearch response is abstracted as `Option (List Int)`:
`none` models the `except` path (any exception from the stats call),
`some l` models a successful call returning the per-index document
counts `l`.  The source returns `0` when no indices match and otherwise
sums `stats['total']['docs']['count']` over the matching indices; on an
exception it prints the error and returns `0`. -/

def get_doc_count (resp : Option (List Int)) : Int :=
  match resp with
  | none => 0
  | some idxCounts => if idxCounts = [] then 0 else idxCounts.sum

/-! ## Monitor state and loop (`monitor_elasticsearch`, lines 289-371) -/

/-- The mutable variables of the monitoring loop (source lines 301-305). -/
@[ext]
structure MonitorState where
  initial_count : Int
  stable_count : Int
  stable_since : Int
  last_count : Int
  max_count : Int
deriving DecidableEq, Repr

/-- Initial monitor state (source lines 298-305): all counters start at
the initial document count and `stable_since` starts at the setup time. -/
def initState (initial t0 : Int) : MonitorState :=
  ⟨initial, initial, t0, initial, initial⟩

/-- One iteration of the `while True:` body (source lines 314-347),
excluding the break: given the stability dwell `st` (`args.stable_time`),
the current time `t`, the sampled count `c` and the incoming state, it
returns the updated state together with the break condition of line 344:
`current_count > initial_count and current_count == stable_count and
(current_time - stable_since) >= args.stable_time`. -/
def monitorStep (st t c : Int) (s : MonitorState) : MonitorState × Bool :=
  let new_docs := c - s.last_count
  let s1 : MonitorState :=
    { s with last_count := c,
             max_count := if s.max_count < c then c else s.max_count }
  let s2 : MonitorState :=
    if c = s.initial_count then s1
    else if 0 < new_docs then { s1 with stable_count := c, stable_since := t }
    else s1
  (s2, decide (s.initial_count < c) && decide (c = s2.stable_count) &&
        decide (st ≤ t - s2.stable_since))

/-- The monitoring loop with explicit fuel.  `counts i` is the value of
`get_doc_count` at iteration `i`, `tm i` the value of `time.time()` at
the top of iteration `i`.  On the break of line 347 the loop returns the
break iteration index and the summary value `current_count -
initial_count` of lines 355/367; running out of fuel (`none`) models a
loop still running. -/
def monitorLoop (st : Int) (counts tm : Nat → Int) :
    Nat → Nat → MonitorState → Option (Nat × Int)
  | _, 0, _ => none
  | i, fuel + 1, s =>
    let r := monitorStep st (tm i) (counts i) s
    if r.2 then some (i, counts i - s.initial_count)
    else monitorLoop st counts tm (i + 1) fuel r.1

/-- The state of the monitor just before iteration `i`, ignoring the
break (pure state evolution of the loop body). -/
def runState (st : Int) (counts tm : Nat → Int) (initial t0 : Int) :
    Nat → MonitorState
  | 0 => initState initial t0
  | i + 1 => (monitorStep st (tm i) (counts i)
      (runState st counts tm initial t0 i)).1

/-- The break condition of line 344 evaluated at iteration `i`. -/
def doneAt (st : Int) (counts tm : Nat → Int) (initial t0 : Int) (i : Nat) :
    Bool :=
  (monitorStep st (tm i) (counts i) (runState st counts tm initial t0 i)).2

/-! ## Interrupt behaviour of the monitor (lines 369-371) and the
driver's exit-code mapping (lines 440-453) -/

/-- Result of one whole monitoring session in which a `KeyboardInterrupt`
is delivered during the sleep following iteration `interruptAfter`
(line 350).  If the stability break of line 344 fires at or before that
iteration, the session ends normally first (`true`, summary value of
line 367); otherwise the handler of lines 369-371 returns
`current_count - initial_count` with `current_count` holding the sample
of iteration `interruptAfter` (`false` tags the interrupted outcome). -/
def monitorOutcome (st : Int) (counts tm : Nat → Int) (initial t0 : Int)
    (interruptAfter : Nat) : Bool × Int :=
  match monitorLoop st counts tm 0 (interruptAfter + 1) (initState initial t0) with
  | some (_, r) => (true, r)
  | none => (false, counts interruptAfter - initial)

/-- Exit-code mapping of `main` (lines 440-453): `sys.exit(0)` iff the
integer returned by `monitor_elasticsearch` is positive. -/
def mainExitCode (new_docs : Int) : Nat :=
  if 0 < new_docs then 0 else 1

/-! ## Python local scoping of `current_count` in the interrupt handler
(lines 369-371)

`current_count` is a local of `monitor_elasticsearch` first assigned at
line 319, inside the loop.  If the interrupt arrives before that first
assignment completes, the handler's read of `current_count` raises
`UnboundLocalError`, which no enclosing handler catches.  The binding is
modelled as `Option Int`: `none` before the first sample, `some` of the
latest sample afterwards. -/

def unboundLocalMsg : String := "UnboundLocalError"

/-- The value bound to `current_count` after `samplesCompleted`
assignments at line 319 have completed. -/
def currentCountBinding (counts : Nat → Int) (samplesCompleted : Nat) :
    Option Int :=
  match samplesCompleted with
  | 0 => none
  | k + 1 => some (counts k)

/-- The interrupt handler of lines 369-371: returns
`current_count - initial_count` when `current_count` is bound, and
raises `UnboundLocalError` otherwise. -/
def monitorInterruptReturn (current_count : Option Int)
    (initial_count : Int) : Except String Int :=
  match current_count with
  | none => Except.error unboundLocalMsg
  | some c => Except.ok (c - initial_count)

/-! ## Index pattern logic (lines 226-235 and 294) -/

def filebeatPattern : String := "filebeat-*"

/-- Source lines 226-235.  Line 229 is `return f"filebeat-*"`, reached
unconditionally, so the function is the constant pattern; the log-type
branches of lines 230-235 are dead code, modelled separately as
`index_pattern_dead_branches`. -/
def get_default_index_pattern (log_type today : String) : String :=
  filebeatPattern

def fb7 : String := "filebeat-7.*-"
def dashStr : String := "-"
def allLiteral : String := "all"
def knownLogTypes : List String := ["linux", "windows", "mac", "ssh", "apache"]

/-- The unreachable branches of lines 230-235, as they would compute if
the early return of line 229 were absent. -/
def index_pattern_dead_branches (log_type today : String) : String :=
  if log_type = allLiteral then fb7 ++ today
  else if log_type ∈ knownLogTypes then fb7 ++ log_type ++ dashStr ++ today
  else fb7 ++ today

def emptyStr : String := ""

/-- Line 294: `index_pattern = args.index if args.index else
get_default_index_pattern(args)`.  Python falsiness makes both `None`
and the empty string fall back to the default. -/
def resolveIndexPattern (index : Option String) (log_type today : String) :
    String :=
  match index with
  | some s => if s = emptyStr then get_default_index_pattern log_type today
              else s
  | none => get_default_index_pattern log_type today

/-! ## Download probe and setup steps (lines 123-194) -/

def downloadedMarkerText : String := "Downloaded"
def probeOutputYes : String := "Downloaded\n"
def probeOutputNo : String := "Not Downloaded\n"

/-- Stdout of the probe command of line 125
(`test -f {log_dir}/DOWNLOAD_COMPLETE && echo 'Downloaded' || echo 'Not
Downloaded'`), as a function of whether the marker file exists. -/
def probeOutput (markerExists : Bool) : String :=
  if markerExists then probeOutputYes else probeOutputNo

/-- `check_log_download_status` (lines 123-133): returns whether the
Python expression `"Downloaded" in output` holds on the probe output. -/
def check_log_download_status (markerExists : Bool) : Bool :=
  pyIn downloadedMarkerText (probeOutput markerExists)

/-- `download_logs` (lines 135-152): truth value returned as a function
of the remote exit status of the download command. -/
def download_logs (exitStatus : Int) : Bool := decide (exitStatus = 0)

/-- `create_symlinks` (lines 154-194): the returned truth value depends
only on the exit status of the symlink-construction command (line 169);
the mkdir and chown statuses are ignored and an unparseable link count
is non-fatal (lines 181-188). -/
def create_symlinks (exitStatus : Int) : Bool := decide (exitStatus = 0)

/-! ## The driver `main` (lines 395-459) -/

/-- The externally visible actions of one run of `main`. -/
inductive Step where
  | sshConnect
  | probe
  | download
  | symlinks
  | restart
  | esConnect
  | monitor
  | sshClose
deriving DecidableEq, Repr

/-- Abstract remote/network environment of one run of `main`. -/
structure Env where
  markerExists : Bool
  forceDownload : Bool
  downloadExit : Int
  symlinksExit : Int
  interruptBeforeMonitor : Bool
  esPingOk : Bool
  monitorNewDocs : Int

/-- The `try:` body of `main` (lines 410-453): the sequence of actions
performed and the process exit code the body decides on.
`interruptBeforeMonitor` models a `KeyboardInterrupt` delivered during
the fixed 10-second grace sleep of line 432, which propagates out of the
body (Python exits with a nonzero status on the unhandled exception);
`esPingOk = false` models the `sys.exit(1)` of line 218 inside
`setup_elasticsearch_client`; `monitorNewDocs` is the integer returned
by `monitor_elasticsearch`. -/
def mainBody (e : Env) : List Step × Nat :=
  let downloaded := check_log_download_status e.markerExists
  let downloadSteps :=
    if !downloaded || e.forceDownload then [Step.probe, Step.download]
    else [Step.probe]
  if (!downloaded || e.forceDownload) && !download_logs e.downloadExit then
    (downloadSteps, 1)
  else if !create_symlinks e.symlinksExit then
    (downloadSteps ++ [Step.symlinks], 1)
  else if e.interruptBeforeMonitor then
    (downloadSteps ++ [Step.symlinks, Step.restart], 1)
  else if !e.esPingOk then
    (downloadSteps ++ [Step.symlinks, Step.restart, Step.esConnect], 1)
  else
    (downloadSteps ++ [Step.symlinks, Step.restart, Step.esConnect,
        Step.monitor],
      mainExitCode e.monitorNewDocs)

/-- One whole run of `main` after the SSH connection is acquired
(line 408): the `try/finally` of lines 410-459 closes the SSH client on
every exit path of the body, so the trace is the body's trace bracketed
by `sshConnect` and `sshClose`. -/
def mainRun (e : Env) : List Step × Nat :=
  (Step.sshConnect :: (mainBody e).1 ++ [Step.sshClose], (mainBody e).2)

/-! ## Concrete sample streams used by counterexamples and witnesses -/

/-- Sample stream `10, 0, 8, 8, 8, ...`: a real count of `10`, then a
failed query (reported as `0` by `get_doc_count`), then `8` forever. -/
def blipCounts : Nat → Int :=
  fun i => if i = 0 then 10 else if i = 1 then 0 else 8

/-- Sample times `1, 2, 3, ...`. -/
def tickTimes : Nat → Int := fun i => (i : Int) + 1

/-- Elasticsearch responses for the transient-failure scenario: tick `0`
returns one index with `100` documents, tick `1` raises, and every later
tick returns one index with `250` documents. -/
def respW : Nat → Option (List Int) :=
  fun i => if i = 1 then none else if i = 0 then some [100] else some [250]

/-! ## General lemmas about the monitoring loop -/

theorem monitorStep_initial (st t c : Int) (s : MonitorState) :
    (monitorStep st t c s).1.initial_count = s.initial_count := by
  rcases s with ⟨ic, sc, ss, lc, mc⟩
  simp only [monitorStep]
  split_ifs <;> rfl

theorem monitorStep_last (st t c : Int) (s : MonitorState) :
    (monitorStep st t c s).1.last_count = c := by
  rcases s with ⟨ic, sc, ss, lc, mc⟩
  simp only [monitorStep]
  split_ifs <;> rfl

theorem monitorStep_done_gt (st t c : Int) (s : MonitorState)
    (h : (monitorStep st t c s).2 = true) : s.initial_count < c := by
  simp only [monitorStep, Bool.and_eq_true, decide_eq_true_eq] at h
  exact h.1.1

theorem runState_initial (st : Int) (counts tm : Nat → Int)
    (initial t0 : Int) : ∀ i,
    (runState st counts tm initial t0 i).initial_count = initial := by
  intro i
  induction i with
  | zero => rfl
  | succ n ih => rw [runState, monitorStep_initial]; exact ih

theorem runState_last_succ (st : Int) (counts tm : Nat → Int)
    (initial t0 : Int) (i : Nat) :
    (runState st counts tm initial t0 (i + 1)).last_count = counts i := by
  rw [runState, monitorStep_last]

theorem doneAt_gt (st : Int) (counts tm : Nat → Int) (initial t0 : Int)
    (i : Nat) (h : doneAt st counts tm initial t0 i = true) :
    initial < counts i := by
  have := monitorStep_done_gt st (tm i) (counts i)
    (runState st counts tm initial t0 i) h
  rwa [runState_initial] at this

/-- If no sample ever exceeds the initial count, the break condition of
line 344 never fires, so the loop never returns, from any state whose
`initial_count` field is the initial count. -/
theorem monitorLoop_none_of_le (st : Int) (counts tm : Nat → Int)
    (initial : Int) (hle : ∀ m, counts m ≤ initial) :
    ∀ (fuel i : Nat) (s : MonitorState), s.initial_count = initial →
      monitorLoop st counts tm i fuel s = none := by
  intro fuel
  induction fuel with
  | zero => intro i s _; rfl
  | succ n ih =>
    intro i s hs
    have hdone : (monitorStep st (tm i) (counts i) s).2 = false := by
      cases hd : (monitorStep st (tm i) (counts i) s).2
      · rfl
      · have := monitorStep_done_gt st (tm i) (counts i) s hd
        rw [hs] at this
        exact absurd this (not_lt.mpr (hle i))
    rw [monitorLoop]
    simp only [hdone, Bool.false_eq_true, if_false]
    exact ih (i + 1) _ (by rw [monitorStep_initial]; exact hs)

/-- If the break condition fires at iteration `m` and at no iteration in
`[i, m)`, then the loop started at iteration `i` with enough fuel returns
the break index `m` and the summary `counts m - initial`. -/
theorem monitorLoop_runState_some (st : Int) (counts tm : Nat → Int)
    (initial t0 : Int) (m : Nat)
    (hm : doneAt st counts tm initial t0 m = true) :
    ∀ (fuel i : Nat), i ≤ m →
      (∀ k, i ≤ k → k < m → doneAt st counts tm initial t0 k = false) →
      m < i + fuel →
      monitorLoop st counts tm i fuel (runState st counts tm initial t0 i) =
        some (m, counts m - initial) := by
  intro fuel
  induction fuel with
  | zero => intro i him hmin hlt; omega
  | succ n ih =>
    intro i him hmin hlt
    rw [monitorLoop]
    rcases Nat.eq_or_lt_of_le him with heq | hlt2
    · subst heq
      have hm' : (monitorStep st (tm i) (counts i)
          (runState st counts tm initial t0 i)).2 = true := hm
      simp only [hm', if_true]
      rw [runState_initial]
    · have hfalse : (monitorStep st (tm i) (counts i)
          (runState st counts tm initial t0 i)).2 = false :=
        hmin i le_rfl hlt2
      simp only [hfalse, Bool.false_eq_true, if_false]
      have hnext : (monitorStep st (tm i) (counts i)
          (runState st counts tm initial t0 i)).1 =
          runState st counts tm initial t0 (i + 1) := rfl
      rw [hnext]
      exact ih (i + 1) hlt2 (fun k hk1 hk2 => hmin k (by omega) hk2) (by omega)

/-- Whenever the loop returns, it returns the index of an iteration on
which the break condition of line 344 fired, together with the summary
value `counts idx - initial`. -/
theorem monitorLoop_sound (st : Int) (counts tm : Nat → Int)
    (initial t0 : Int) :
    ∀ (fuel i idx : Nat) (r : Int),
      monitorLoop st counts tm i fuel
        (runState st counts tm initial t0 i) = some (idx, r) →
      doneAt st counts tm initial t0 idx = true ∧
        r = counts idx - initial ∧ i ≤ idx := by
  intro fuel
  induction fuel with
  | zero => intro i idx r h; exact absurd h (by rw [monitorLoop]; simp)
  | succ n ih =>
    intro i idx r h
    rw [monitorLoop] at h
    cases hd : (monitorStep st (tm i) (counts i)
        (runState st counts tm initial t0 i)).2 with
    | true =>
      simp only [hd, if_true, Option.some.injEq, Prod.mk.injEq] at h
      obtain ⟨rfl, hr⟩ := h
      refine ⟨hd, ?_, le_rfl⟩
      rw [← hr, runState_initial]
    | false =>
      simp only [hd, Bool.false_eq_true, if_false] at h
      have hnext : (monitorStep st (tm i) (counts i)
          (runState st counts tm initial t0 i)).1 =
          runState st counts tm initial t0 (i + 1) := rfl
      rw [hnext] at h
      obtain ⟨ha, hb, hc⟩ := ih (i + 1) idx r h
      exact ⟨ha, hb, by omega⟩

/-- A tick whose sample strictly exceeds the previous one (and differs
from the initial count) starts a new stability window: the state after
the tick records the sample as `stable_count` and `last_count` and the
tick time as `stable_since`. -/
theorem monitorStep_growth (st t c : Int) (s : MonitorState)
    (hlt : s.last_count < c) (hne : c ≠ s.initial_count) :
    (monitorStep st t c s).1 =
      ⟨s.initial_count, c, t, c,
        if s.max_count < c then c else s.max_count⟩ := by
  rcases s with ⟨ic, sc, ss, lc, mc⟩
  simp only at hlt hne
  simp only [monitorStep, if_neg hne, if_pos (by omega : (0:Int) < c - lc)]

/-- A tick whose sample repeats `last_count`, does not raise
`max_count`, and differs from the initial count leaves the state
unchanged; the break flag is the condition of line 344 on that state. -/
theorem monitorStep_fixed (st t c : Int) (s : MonitorState)
    (hlast : s.last_count = c) (hmax : ¬ s.max_count < c)
    (hne : c ≠ s.initial_count) :
    monitorStep st t c s =
      (s, decide (s.initial_count < c) && decide (c = s.stable_count) &&
        decide (st ≤ t - s.stable_since)) := by
  rcases s with ⟨ic, sc, ss, lc, mc⟩
  simp only at hlast hmax hne
  subst hlast
  simp only [monitorStep, if_neg hne, if_neg hmax,
    if_neg (by omega : ¬ (0:Int) < lc - lc)]

/-- Once the samples are constantly `v` from iteration `j` on and the
state after iteration `j` already records `v` as its `last_count` (with
`max_count` at least `v` and `v` different from the initial count), the
state stops changing. -/
theorem runState_fixed (st : Int) (counts tm : Nat → Int)
    (initial t0 : Int) (j : Nat) (v : Int)
    (hflat : ∀ i, j ≤ i → counts i = v)
    (hlast : (runState st counts tm initial t0 (j + 1)).last_count = v)
    (hmax : ¬ (runState st counts tm initial t0 (j + 1)).max_count < v)
    (hne : v ≠ initial) :
    ∀ d, runState st counts tm initial t0 (j + 1 + d) =
      runState st counts tm initial t0 (j + 1) := by
  intro d
  induction d with
  | zero => rfl
  | succ n ih =>
    have hidx : j + 1 + (n + 1) = (j + 1 + n) + 1 := by omega
    rw [hidx, runState, ih, hflat (j + 1 + n) (by omega)]
    have hne' : v ≠ (runState st counts tm initial t0 (j + 1)).initial_count := by
      rw [runState_initial]; exact hne
    rw [monitorStep_fixed st (tm (j + 1 + n)) v _ hlast hmax hne']

/-- If the samples are constantly `v` from iteration `j` on, with
`v` strictly above the initial count and the state entering iteration
`j` holding a `last_count` below `v`, then — times being monotone and
unbounded — the break condition of line 344 eventually fires. -/
theorem tail_done_exists (st : Int) (counts tm : Nat → Int)
    (initial t0 : Int) (j : Nat) (v : Int)
    (hflat : ∀ i, j ≤ i → counts i = v)
    (hlast : (runState st counts tm initial t0 j).last_count < v)
    (hvi : initial < v)
    (htm : ∀ a b : Nat, a ≤ b → tm a ≤ tm b)
    (hub : ∀ B : Int, ∃ i, B ≤ tm i) :
    ∃ m, doneAt st counts tm initial t0 m = true := by
  have hcj : counts j = v := hflat j le_rfl
  have hne : counts j ≠ (runState st counts tm initial t0 j).initial_count := by
    rw [hcj, runState_initial]; exact hvi.ne'
  have hstep := monitorStep_growth st (tm j) (counts j)
    (runState st counts tm initial t0 j) (by rw [hcj]; exact hlast) hne
  have hS : runState st counts tm initial t0 (j + 1) =
      ⟨(runState st counts tm initial t0 j).initial_count, counts j, tm j,
        counts j,
        if (runState st counts tm initial t0 j).max_count < counts j
        then counts j
        else (runState st counts tm initial t0 j).max_count⟩ := by
    rw [runState, hstep]
  have h1 : (runState st counts tm initial t0 (j + 1)).stable_count = v := by
    rw [hS]; exact hcj
  have h2 : (runState st counts tm initial t0 (j + 1)).stable_since = tm j := by
    rw [hS]
  have h3 : (runState st counts tm initial t0 (j + 1)).last_count = v := by
    rw [hS]; exact hcj
  have h4 : ¬ (runState st counts tm initial t0 (j + 1)).max_count < v := by
    rw [hS]
    dsimp only
    rw [hcj]
    split_ifs with hc
    · omega
    · exact hc
  have hfix := runState_fixed st counts tm initial t0 j v hflat h3 h4 hvi.ne'
  obtain ⟨i0, hi0⟩ := hub (tm j + st)
  refine ⟨max i0 (j + 1), ?_⟩
  have hm1 : j + 1 ≤ max i0 (j + 1) := le_max_right _ _
  have hm2 : tm j + st ≤ tm (max i0 (j + 1)) :=
    le_trans hi0 (htm i0 _ (le_max_left _ _))
  have hrm : runState st counts tm initial t0 (max i0 (j + 1)) =
      runState st counts tm initial t0 (j + 1) := by
    obtain ⟨d, hd⟩ : ∃ d, max i0 (j + 1) = j + 1 + d :=
      ⟨max i0 (j + 1) - (j + 1), by omega⟩
    rw [hd]; exact hfix d
  show (monitorStep st (tm (max i0 (j + 1))) (counts (max i0 (j + 1)))
      (runState st counts tm initial t0 (max i0 (j + 1)))).2 = true
  rw [hrm, hflat _ (by omega)]
  have hne' : v ≠ (runState st counts tm initial t0 (j + 1)).initial_count := by
    rw [runState_initial]; exact hvi.ne'
  rw [monitorStep_fixed st _ v _ h3 h4 hne']
  simp only [Bool.and_eq_true, decide_eq_true_eq]
  refine ⟨⟨?_, h1.symm⟩, ?_⟩
  · rw [runState_initial]; exact hvi
  · rw [h2]; omega

/-- If the break condition fires somewhere, the whole monitoring session
started from the initial state terminates at the earliest firing
iteration, with the summary value of that iteration, under any
sufficient fuel. -/
theorem done_exists_success (st : Int) (counts tm : Nat → Int)
    (initial t0 : Int)
    (h : ∃ m, doneAt st counts tm initial t0 m = true) :
    ∃ idx, doneAt st counts tm initial t0 idx = true ∧
      (∀ m, doneAt st counts tm initial t0 m = true → idx ≤ m) ∧
      ∀ fuel, idx < fuel →
        monitorLoop st counts tm 0 fuel (initState initial t0) =
          some (idx, counts idx - initial) := by
  classical
  refine ⟨Nat.find h, Nat.find_spec h, fun m hm => Nat.find_min' h hm, ?_⟩
  intro fuel hfuel
  have hmin : ∀ k, 0 ≤ k → k < Nat.find h →
      doneAt st counts tm initial t0 k = false := by
    intro k _ hk
    cases hb : doneAt st counts tm initial t0 k
    · rfl
    · exact absurd hb (Nat.find_min h hk)
  exact monitorLoop_runState_some st counts tm initial t0 (Nat.find h)
    (Nat.find_spec h) fuel 0 (Nat.zero_le _) hmin (by omega)

/-- The last element of a trace of the form `a :: l ++ [b]` is `b`. -/
theorem trace_getLast (a b : Step) :
    ∀ l : List Step, (a :: (l ++ [b])).getLast? = some b := by
  intro l
  induction l generalizing a with
  | nil => rfl
  | cons c t ih =>
    show (a :: c :: (t ++ [b])).getLast? = some b
    rw [List.getLast?_cons_cons]
    exact ih c

/-! ## Claims -/

/-- C1 (corrected): the Monitor emits `Success` exactly on the break
condition `current_count > initial_count AND current_count ==
stable_count AND (now - stable_since) >= stableTime`, reporting
`new_documents` equal to the current count observed at termination minus
`initial_count`; and for every sampled count sequence that is
monotonically non-decreasing and eventually flat at a value strictly
greater than the initial count (times monotone and unbounded), the
Monitor terminates and reports `Success` with `new_documents` equal to
the observed count at termination minus the initial count, that count
strictly exceeding the initial count.  (The original claim, without the
restriction to a flat value above the initial count, is refuted by
`flat_at_initial_never_succeeds`.) -/
theorem monitor_success_of_eventually_flat (st : Int)
    (counts tm : Nat → Int) (initial t0 : Int) (N : Nat)
    (hmono : ∀ i j : Nat, i ≤ j → counts i ≤ counts j)
    (hflat : ∀ i, N ≤ i → counts i = counts N)
    (hgt : initial < counts N)
    (htm : ∀ i j : Nat, i ≤ j → tm i ≤ tm j)
    (hub : ∀ B : Int, ∃ i, B ≤ tm i) :
    (∀ (n idx : Nat) (r : Int),
        monitorLoop st counts tm 0 n (initState initial t0) =
          some (idx, r) →
        doneAt st counts tm initial t0 idx = true ∧
          r = counts idx - initial) ∧
    (∀ m, doneAt st counts tm initial t0 m = true →
        ∃ idx, idx ≤ m ∧
          monitorLoop st counts tm 0 (m + 1) (initState initial t0) =
            some (idx, counts idx - initial)) ∧
    (∃ n idx, monitorLoop st counts tm 0 n (initState initial t0) =
        some (idx, counts idx - initial) ∧ initial < counts idx) := by
  refine ⟨?_, ?_, ?_⟩
  · intro n idx r h
    have hs := monitorLoop_sound st counts tm initial t0 n 0 idx r h
    exact ⟨hs.1, hs.2.1⟩
  · intro m hm
    obtain ⟨idx, hdone, hle, hloop⟩ :=
      done_exists_success st counts tm initial t0 ⟨m, hm⟩
    exact ⟨idx, hle m hm, hloop (m + 1) (by have := hle m hm; omega)⟩
  · have hex : ∃ a, counts a = counts N := ⟨N, rfl⟩
    obtain ⟨j, hj, hmin, hjN⟩ :
        ∃ j, counts j = counts N ∧
          (∀ k, k < j → counts k ≠ counts N) ∧ j ≤ N :=
      ⟨Nat.find hex, Nat.find_spec hex, fun k hk => Nat.find_min hex hk,
        Nat.find_min' hex rfl⟩
    have hflat' : ∀ i, j ≤ i → counts i = counts N := by
      intro i hi
      rcases le_or_lt i N with h1 | h1
      · exact le_antisymm (hmono i N h1) (hj ▸ hmono j i hi)
      · exact hflat i h1.le
    have hlast : (runState st counts tm initial t0 j).last_count <
        counts N := by
      rcases j with _ | k
      · exact hgt
      · rw [runState_last_succ]
        have h1 : counts k ≤ counts N := hmono k N (by omega)
        have h2 : counts k ≠ counts N := hmin k (by omega)
        omega
    have hd := tail_done_exists st counts tm initial t0 j (counts N)
      hflat' hlast hgt htm hub
    obtain ⟨idx, hdone, _, hloop⟩ :=
      done_exists_success st counts tm initial t0 hd
    exact ⟨idx + 1, idx, hloop (idx + 1) (by omega),
      doneAt_gt st counts tm initial t0 idx hdone⟩

/-- C1 witness: a stream constantly `250` with initial count `0`
satisfies the hypotheses, and the Monitor reports `Success` with
`new_documents = 250 - 0`. -/
theorem monitor_success_of_eventually_flat_witness :
    (0 : Int) < 250 ∧
    ∃ n idx, monitorLoop 60 (fun _ => (250 : Int)) (fun i => (i : Int))
        0 n (initState 0 0) = some (idx, 250 - 0) ∧ (0 : Int) < 250 := by
  refine ⟨by decide, ?_⟩
  have h := (monitor_success_of_eventually_flat 60 (fun _ => (250 : Int))
    (fun i => (i : Int)) 0 0 0
    (fun _ _ _ => le_rfl) (fun _ _ => rfl) (by decide)
    (fun i j hij => by simpa using (Int.ofNat_le.mpr hij))
    (fun B => ⟨B.toNat, Int.self_le_toNat B⟩)).2.2
  obtain ⟨n, idx, h1, h2⟩ := h
  exact ⟨n, idx, h1, h2⟩

/-- C1 counterexample: the constant stream at the initial count `5` is
monotonically non-decreasing and eventually flat, yet the Monitor never
returns, refuting the original universally quantified claim. -/
theorem flat_at_initial_never_succeeds :
    (∀ i j : Nat, i ≤ j →
      (fun _ : Nat => (5 : Int)) i ≤ (fun _ : Nat => (5 : Int)) j) ∧
    (∀ i : Nat, 0 ≤ i →
      (fun _ : Nat => (5 : Int)) i = (fun _ : Nat => (5 : Int)) 0) ∧
    ¬ ∃ (n : Nat) (p : Nat × Int),
        monitorLoop 60 (fun _ => (5 : Int)) (fun i => (i : Int)) 0 n
          (initState 5 0) = some p := by
  refine ⟨fun _ _ _ => le_rfl, fun _ _ => rfl, ?_⟩
  rintro ⟨n, p, hp⟩
  rw [monitorLoop_none_of_le 60 (fun _ => (5 : Int)) (fun i => (i : Int))
    5 (fun _ => le_rfl) n 0 (initState 5 0) rfl] at hp
  exact Option.noConfusion hp

/-- C4 (confirmed): if no sampled count ever exceeds the initial count
(in particular for the all-zero stream), the Monitor never reports
`Success`, however long it runs: the growth guard `current_count >
initial_count` of line 344 never holds, so a flat count at the initial
value is never classified as successful stability and the loop runs
until externally interrupted. -/
theorem monitor_no_success_without_growth (st : Int)
    (counts tm : Nat → Int) (initial t0 : Int)
    (h : ∀ i, counts i ≤ initial) (n : Nat) :
    monitorLoop st counts tm 0 n (initState initial t0) = none :=
  monitorLoop_none_of_le st counts tm initial h n 0 (initState initial t0)
    rfl

/-- C4 witness: the all-zero stream with initial count `0` yields no
result after seven iterations. -/
theorem monitor_no_success_without_growth_witness :
    (∀ i : Nat, (fun _ : Nat => (0 : Int)) i ≤ 0) ∧
    monitorLoop 60 (fun _ => (0 : Int)) (fun i => (i : Int)) 0 7
      (initState 0 0) = none :=
  ⟨fun _ => le_rfl,
    monitor_no_success_without_growth 60 (fun _ => (0 : Int))
      (fun i => (i : Int)) 0 0 (fun _ => le_rfl) 7⟩

/-- C5 (confirmed): a failed document-count query is absorbed by
`get_doc_count` as a zero sample (`get_doc_count none = 0`), and the
monitoring loop has no aborting path on such a tick; a run whose
response stream contains a failing tick but whose counts later resume
growth and become genuinely stable at a value above the initial count
still ends in `Success` (the loop returns, reporting the count observed
at termination, which exceeds the initial count). -/
theorem monitor_tolerates_transient_failure
    (resp : Nat → Option (List Int)) (tm : Nat → Int)
    (st initial t0 : Int) (k j : Nat) (v : Int)
    (hfail : resp k = none)
    (hj1 : 1 ≤ j)
    (hflat : ∀ i, j ≤ i → get_doc_count (resp i) = v)
    (hprev : get_doc_count (resp (j - 1)) < v)
    (hvi : initial < v)
    (htm : ∀ a b : Nat, a ≤ b → tm a ≤ tm b)
    (hub : ∀ B : Int, ∃ i, B ≤ tm i) :
    get_doc_count none = 0 ∧
    ∃ n idx r,
      monitorLoop st (fun i => get_doc_count (resp i)) tm 0 n
        (initState initial t0) = some (idx, r) ∧
      initial < get_doc_count (resp idx) ∧
      r = get_doc_count (resp idx) - initial := by
  refine ⟨rfl, ?_⟩
  have hlast : (runState st (fun i => get_doc_count (resp i)) tm initial
      t0 j).last_count < v := by
    obtain ⟨p, rfl⟩ : ∃ p, j = p + 1 := ⟨j - 1, by omega⟩
    rw [runState_last_succ]
    simpa using hprev
  have hd := tail_done_exists st (fun i => get_doc_count (resp i)) tm
    initial t0 j v hflat hlast hvi htm hub
  obtain ⟨idx, hdone, _, hloop⟩ :=
    done_exists_success st (fun i => get_doc_count (resp i)) tm initial
      t0 hd
  exact ⟨idx + 1, idx, get_doc_count (resp idx) - initial,
    hloop (idx + 1) (by omega),
    doneAt_gt st (fun i => get_doc_count (resp i)) tm initial t0 idx
      hdone, rfl⟩

/-- C5 witness: responses `some [100]`, then a raised query, then
constantly `some [250]`, with initial count `0`: the failing tick is a
zero sample and the run still ends in `Success`. -/
theorem monitor_tolerates_transient_failure_witness :
    respW 1 = none ∧ get_doc_count none = 0 ∧
    ∃ n idx r,
      monitorLoop 60 (fun i => get_doc_count (respW i))
        (fun i => (i : Int)) 0 n (initState 0 0) = some (idx, r) ∧
      (0 : Int) < get_doc_count (respW idx) ∧
      r = get_doc_count (respW idx) - 0 := by
  refine ⟨rfl, ?_⟩
  refine monitor_tolerates_transient_failure respW (fun i => (i : Int))
    60 0 0 1 2 250 rfl (by omega) ?_ (by decide) (by decide)
    (fun i j hij => by simpa using (Int.ofNat_le.mpr hij))
    (fun B => ⟨B.toNat, Int.self_le_toNat B⟩)
  intro i hi
  have h1 : i ≠ 1 := by omega
  have h0 : i ≠ 0 := by omega
  simp [respW, h0, h1, get_doc_count]

/-- C2 (corrected): the Pipeline Driver exits `0` exactly when the
integer returned by the Monitor is positive, regardless of whether the
session completed through the stability break or through the interrupt
handler — `main` only sees the returned integer (lines 440-453); and at
the driver level, exit code `0` occurs exactly when the monitor step ran
and its count is positive.  (The original claim, that an `Interrupted`
outcome always yields failure, is refuted by
`interrupted_with_growth_exits_zero`.) -/
theorem driver_success_iff_positive_count :
    (∀ (st : Int) (counts tm : Nat → Int) (initial t0 : Int) (k : Nat),
      mainExitCode (monitorOutcome st counts tm initial t0 k).2 = 0 ↔
        0 < (monitorOutcome st counts tm initial t0 k).2) ∧
    (∀ e : Env, (mainRun e).2 = 0 ↔
      (Step.monitor ∈ (mainRun e).1 ∧ 0 < e.monitorNewDocs)) := by
  constructor
  · intro st counts tm initial t0 k
    by_cases h : 0 < (monitorOutcome st counts tm initial t0 k).2 <;>
      simp [mainExitCode, h]
  · intro e
    have hlift : (Step.monitor ∈ (mainRun e).1) ↔
        Step.monitor ∈ (mainBody e).1 := by
      simp [mainRun]
    rw [hlift]
    show (mainBody e).2 = 0 ↔ _
    unfold mainBody
    by_cases h1 : (!check_log_download_status e.markerExists ||
        e.forceDownload) = true <;>
      simp only [h1, Bool.false_eq_true, if_true, if_false,
        Bool.true_and, Bool.false_and] <;>
      split_ifs <;>
      simp_all [mainExitCode]

/-- C2 counterexample: an interrupt after the first tick of a session
whose first sample is `10` above the initial count `0` (stability dwell
`100` not yet reached) produces the interrupted outcome carrying a
positive partial count, and `main` maps it to exit code `0`, not `1`. -/
theorem interrupted_with_growth_exits_zero :
    (monitorOutcome 100 (fun _ => (10 : Int)) (fun i => (i : Int))
      0 0 0).1 = false ∧
    0 < (monitorOutcome 100 (fun _ => (10 : Int)) (fun i => (i : Int))
      0 0 0).2 ∧
    mainExitCode (monitorOutcome 100 (fun _ => (10 : Int))
      (fun i => (i : Int)) 0 0 0).2 = 0 := by decide

/-- C3 (code bug): with no completion marker on the remote host and
`forceDownload = false`, the probe output is `Not Downloaded`, yet
`check_log_download_status` returns `True` — the Python test
`"Downloaded" in output` matches the substring of `"Not Downloaded"` —
so the sequencer skips the download step even though the probe reported
the not-downloaded state. -/
theorem probe_substring_bug_skips_download :
    check_log_download_status false = true ∧
    pyIn downloadedMarkerText probeOutputNo = true ∧
    Step.download ∉ (mainRun ⟨false, false, 0, 0, false, true, 5⟩).1 := by
  decide

/-- C6 (confirmed): whenever the download step executes (the source
condition `not logs_downloaded or args.force_download` holds) and the
remote download command exits non-zero, `main` exits `1` before the
monitor — and before the link-farm and restart steps: the download step
is on the trace, while the symlink, restart and monitor steps are
not. -/
theorem download_failure_stops_pipeline (e : Env)
    (hrun : (!check_log_download_status e.markerExists ||
      e.forceDownload) = true)
    (hfail : e.downloadExit ≠ 0) :
    (mainRun e).2 = 1 ∧ Step.monitor ∉ (mainRun e).1 ∧
      Step.symlinks ∉ (mainRun e).1 ∧ Step.restart ∉ (mainRun e).1 ∧
      Step.download ∈ (mainRun e).1 := by
  have hb : mainBody e = ([Step.probe, Step.download], 1) := by
    unfold mainBody
    dsimp only
    rw [hrun]
    have hdl : download_logs e.downloadExit = false := by
      unfold download_logs
      exact decide_eq_false hfail
    simp [hdl]
  refine ⟨?_, ?_, ?_, ?_, ?_⟩
  · show (mainBody e).2 = 1
    rw [hb]
  · show Step.monitor ∉ Step.sshConnect :: ((mainBody e).1 ++ [Step.sshClose])
    rw [hb]
    decide
  · show Step.symlinks ∉ Step.sshConnect :: ((mainBody e).1 ++ [Step.sshClose])
    rw [hb]
    decide
  · show Step.restart ∉ Step.sshConnect :: ((mainBody e).1 ++ [Step.sshClose])
    rw [hb]
    decide
  · show Step.download ∈ Step.sshConnect :: ((mainBody e).1 ++ [Step.sshClose])
    rw [hb]
    decide

/-- C6 witness: a forced download whose remote command exits `1`. -/
theorem download_failure_stops_pipeline_witness :
    ((!check_log_download_status true || true) = true ∧ (1 : Int) ≠ 0) ∧
    ((mainRun ⟨true, true, 1, 0, false, true, 5⟩).2 = 1 ∧
      Step.monitor ∉ (mainRun ⟨true, true, 1, 0, false, true, 5⟩).1 ∧
      Step.symlinks ∉ (mainRun ⟨true, true, 1, 0, false, true, 5⟩).1 ∧
      Step.restart ∉ (mainRun ⟨true, true, 1, 0, false, true, 5⟩).1 ∧
      Step.download ∈ (mainRun ⟨true, true, 1, 0, false, true, 5⟩).1) :=
  ⟨⟨by decide, by decide⟩,
    download_failure_stops_pipeline ⟨true, true, 1, 0, false, true, 5⟩
      (by decide) (by decide)⟩

/-- C7 (corrected): across every sample, `max_count` is non-decreasing
(it becomes `max` of itself and the sample), and `stable_since` is reset
to the current tick time — with `stable_count` updated to the sampled
count — exactly when the sample differs from `initial_count` and
strictly exceeds `last_count` (the previous sample); otherwise both are
unchanged.  (The original trigger, `current_count` exceeding
`stable_count`, is refuted by `stable_since_reset_without_exceeding`.) -/
theorem monitor_window_update_rule (st : Int) (counts tm : Nat → Int)
    (initial t0 : Int) (i : Nat) :
    (runState st counts tm initial t0 i).max_count ≤
      (runState st counts tm initial t0 (i + 1)).max_count ∧
    (runState st counts tm initial t0 (i + 1)).stable_since =
      (if counts i ≠ initial ∧
          (runState st counts tm initial t0 i).last_count < counts i
        then tm i
        else (runState st counts tm initial t0 i).stable_since) ∧
    (runState st counts tm initial t0 (i + 1)).stable_count =
      (if counts i ≠ initial ∧
          (runState st counts tm initial t0 i).last_count < counts i
        then counts i
        else (runState st counts tm initial t0 i).stable_count) := by
  have hic := runState_initial st counts tm initial t0 i
  have hstep : runState st counts tm initial t0 (i + 1) =
      (monitorStep st (tm i) (counts i)
        (runState st counts tm initial t0 i)).1 := rfl
  rw [hstep]
  generalize runState st counts tm initial t0 i = s at hic ⊢
  rcases s with ⟨ic, sc, ss, lc, mc⟩
  dsimp only at hic ⊢
  subst hic
  unfold monitorStep
  dsimp only
  by_cases hc : counts i = ic
  · rw [if_pos hc]
    have hcond : ¬ (counts i ≠ ic ∧ lc < counts i) :=
      fun h => h.1 hc
    rw [if_neg hcond, if_neg hcond]
    refine ⟨?_, ?_, ?_⟩ <;> dsimp only
    split_ifs with h <;> omega
  · rw [if_neg hc]
    by_cases hl : (0 : Int) < counts i - lc
    · rw [if_pos hl]
      have hcond : counts i ≠ ic ∧ lc < counts i := ⟨hc, by omega⟩
      rw [if_pos hcond, if_pos hcond]
      refine ⟨?_, ?_, ?_⟩ <;> dsimp only
      split_ifs with h <;> omega
    · rw [if_neg hl]
      have hcond : ¬ (counts i ≠ ic ∧ lc < counts i) :=
        fun h => absurd h.2 (by omega)
      rw [if_neg hcond, if_neg hcond]
      refine ⟨?_, ?_, ?_⟩ <;> dsimp only
      split_ifs with h <;> omega

/-- C7 counterexample: with initial count `0` and samples `10, 0, 8`
(the `0` being a failed query's zero sample), tick `2` resets
`stable_since` (from time `1` to time `3`) although its sample `8` does
not exceed the prevailing `stable_count` of `10`, refuting the original
trigger. -/
theorem stable_since_reset_without_exceeding :
    (runState 60 blipCounts tickTimes 0 0 3).stable_since ≠
      (runState 60 blipCounts tickTimes 0 0 2).stable_since ∧
    ¬ ((runState 60 blipCounts tickTimes 0 0 2).stable_count <
      blipCounts 2) := by decide

/-- C8 (confirmed): because of the early unconditional return of line
229, `get_default_index_pattern` is the constant pattern `filebeat-*`
for every log type, the default-pattern path of line 294 monitors that
same pattern, and the dead branches of lines 230-235 would compute a
different pattern — so they never influence the monitored pattern. -/
theorem default_index_pattern_constant :
    ∀ log_type today : String,
      get_default_index_pattern log_type today = filebeatPattern ∧
      resolveIndexPattern none log_type today = filebeatPattern ∧
      index_pattern_dead_branches allLiteral emptyStr ≠ filebeatPattern :=
  fun _ _ => ⟨rfl, rfl, by decide⟩

/-- C9 (confirmed): on every run of `main` after the SSH connection is
acquired — normal completion, any failed setup step, a failed
Elasticsearch connection, or an interrupt before the monitor — the
trace begins with the connection and ends with the `finally`-guaranteed
close of the SSH connection. -/
theorem ssh_closed_on_every_path (e : Env) :
    (mainRun e).1.head? = some Step.sshConnect ∧
    (mainRun e).1.getLast? = some Step.sshClose :=
  ⟨rfl, trace_getLast Step.sshConnect Step.sshClose (mainBody e).1⟩

/-- C10 (confirmed): if the interrupt arrives before the first
assignment of `current_count` at line 319 completes, the handler of
lines 369-371 reads an unbound local and raises `UnboundLocalError`
instead of returning a partial count; after at least one completed
sample it returns the partial count `current_count - initial_count`. -/
theorem interrupt_before_first_sample_raises (counts : Nat → Int)
    (initial : Int) :
    monitorInterruptReturn (currentCountBinding counts 0) initial =
      Except.error unboundLocalMsg ∧
    ∀ k, monitorInterruptReturn (currentCountBinding counts (k + 1))
      initial = Except.ok (counts k - initial) :=
  ⟨rfl, fun _ => rfl⟩

end LogPipeline
